import Mathlib

/-!
Shallow embedding of `src/optimizer/lsr1.py` (class `LSR1`, limited-memory SR1
trust-region optimizer) and verification of the frozen claims about it.

Modelling conventions:
* Python float arithmetic is idealized as real arithmetic (`ℝ`); `torch.sqrt`
  and `torch.linalg.norm` become `Real.sqrt` and the Euclidean norm.
* Flat tensors of dimension `n` are functions `Fin n → ℝ`; small matrices are
  Mathlib `Matrix` values.  `torch.matmul(v, A)` is `Matrix.vecMul`,
  `torch.matmul(A, v)` is `Matrix.mulVec`, `v.dot w` is `Matrix.dotProduct`.
* The float-special values that matter for one claim (`math.isnan`, comparisons
  against `nan`/`inf` in line 914 of the source) are modelled separately by the
  small IEEE-style type `FVal`.
* `torch.linalg.eig` / `torch.linalg.qr` (used only to build the compact model,
  lines 783-812) return basis data whose column order and signs torch leaves
  unspecified; the `step` embedding therefore takes the model-building step as
  an abstract `Backend` parameter and the statements about `step` hold for
  every backend.  The three subproblem solvers themselves are embedded
  concretely below.
-/

namespace LSR1

open Matrix

open scoped Classical

/-- Flat parameter/gradient vectors of dimension `n` (torch 1-D tensors). -/
abbrev V (n : ℕ) := Fin n → ℝ

/-- Euclidean norm, `torch.linalg.norm v` on a 1-D tensor. -/
noncomputable def normV {n : ℕ} (v : V n) : ℝ := Real.sqrt (v ⬝ᵥ v)

/-- Infinity norm, `v.abs().max()` (requires a nonempty tensor, as in torch). -/
noncomputable def linf {n : ℕ} [NeZero n] (v : V n) : ℝ :=
  Finset.univ.sup' Finset.univ_nonempty fun i => |v i|

/-- One norm, `v.abs().sum()`. -/
noncomputable def asum {n : ℕ} (v : V n) : ℝ := ∑ i, |v i|

/-- Broadcast addition of a scalar to every component, as torch does when a
0-dimensional tensor is added to a 1-D tensor. -/
def addScalar {n : ℕ} (v : V n) (c : ℝ) : V n := fun i => v i + c

/-- Source lines 581-603, `update_SY`: offer the pair `(s, y)` to the memory
lists; reject it when `y·s + cond_rest ≤ 1e-10`, otherwise pop the oldest pair
first when the memory is full, then append.  The Python code mutates the lists
in place; the embedding returns the new pair of lists. -/
noncomputable def update_SY {n : ℕ} (memory_size : ℕ) (s y : V n)
    (old_s old_y : List (V n)) (cond_rest : ℝ) : List (V n) × List (V n) :=
  let ys := y ⬝ᵥ s
  if 1e-10 < ys + cond_rest then
    if old_s.length = memory_size then
      (old_s.drop 1 ++ [s], old_y.drop 1 ++ [y])
    else
      (old_s ++ [s], old_y ++ [y])
  else (old_s, old_y)

/-- Source lines 605-627, `update_radius`: stochastic trust-radius update.
Returns `(trust_radius, rho, T)` as the Python function does. -/
noncomputable def update_radius {n : ℕ} (r trust_radius : ℝ) (s : V n)
    (T rho : ℝ) : ℝ × ℝ × ℝ :=
  let rho1 := 0.5 * T * rho - r
  let T1 := 0.5 * T + 1
  let rho2 := rho1 / T1
  let norm_s := normV s
  let tr1 := if rho2 < 0.5 then min trust_radius norm_s else trust_radius
  let tr2 := if 0.5 ≤ rho2 ∧ tr1 ≤ norm_s then 2 * tr1 else tr1
  (tr2, rho2, T1)

/-- Source lines 629-646, `trust_solver_cauchy`: Cauchy-point solver.  `hess_1`
and `hess_2` are the `L = lamb * P` and `P = Pᵀ` factors passed by `step`
(lines 808-815), so the quadratic form tested is `gᵀ (hess_1 · hess_2) g`. -/
noncomputable def trust_solver_cauchy {n k : ℕ} (flat_grad : V n)
    (hess_1 : Matrix (Fin n) (Fin k) ℝ) (hess_2 : Matrix (Fin k) (Fin n) ℝ)
    (trust_radius : ℝ) : V n :=
  let gH := hess_1.vecMul flat_grad
  let Hg := hess_2.mulVec flat_grad
  let cauchy_cond := gH ⬝ᵥ Hg
  let tau : ℝ :=
    if cauchy_cond ≤ 0 then 1
    else min (normV flat_grad ^ 3 / (cauchy_cond * trust_radius)) 1
  (-tau * trust_radius / normV flat_grad) • flat_grad

/-- Spec formula for the Cauchy point (section 4.3 of the spec, and claim C4):
`p = −τ·trust_radius/‖g‖·g` with `τ = 1` if `gᵀBg ≤ 0` else
`τ = min(‖g‖³/(trust_radius·gᵀBg), 1)`, where `B = γI + ΨM⁻¹Ψᵀ` is the full
implicit SR1 Hessian, i.e. `γI + hess_1·hess_2`.  Written from the spec's
words, for comparison against `trust_solver_cauchy`. -/
noncomputable def cauchySpec {n k : ℕ} (gamma : ℝ) (flat_grad : V n)
    (hess_1 : Matrix (Fin n) (Fin k) ℝ) (hess_2 : Matrix (Fin k) (Fin n) ℝ)
    (trust_radius : ℝ) : V n :=
  let B : Matrix (Fin n) (Fin n) ℝ := gamma • (1 : Matrix (Fin n) (Fin n) ℝ) + hess_1 * hess_2
  let gBg := flat_grad ⬝ᵥ B.mulVec flat_grad
  let tau : ℝ :=
    if gBg ≤ 0 then 1
    else min (normV flat_grad ^ 3 / (trust_radius * gBg)) 1
  (-tau * trust_radius / normV flat_grad) • flat_grad

/-- Source lines 669-691, the `for _ in range(self.cg_iter)` loop of
`trust_solver_steihaug`, as a fuel recursion; `delta` is the residual
threshold computed before the loop.  The final line of the loop body is
embedded exactly as written in the source: `d = -r + beta * dd` adds the
scalar `beta * dd` (`dd = d·d`) to every component of `-r` by broadcasting. -/
noncomputable def steihaugLoop {n k : ℕ} (hess_1 : Matrix (Fin n) (Fin k) ℝ)
    (hess_2 : Matrix (Fin k) (Fin n) ℝ) (trust_radius delta : ℝ) :
    ℕ → V n → V n → V n → V n
  | 0, z, _, _ => z
  | fuel + 1, z, r, d =>
    let dH := hess_1.vecMul d
    let Hd := hess_2.mulVec d
    let dHd := dH ⬝ᵥ Hd
    let dz := d ⬝ᵥ z
    let dd := d ⬝ᵥ d
    let zz := z ⬝ᵥ z
    if dHd ≤ 0 then
      let tau := (-2 * dz + Real.sqrt ((-2 * dz) ^ 2 - 4 * dd * (zz - trust_radius ^ 2))) / (2 * dd)
      z + tau • d
    else
      let rr := r ⬝ᵥ r
      let alpha := rr / dHd
      let z1 := z + alpha • d
      if trust_radius ≤ normV z1 then
        let tau := (-2 * dz + Real.sqrt ((-2 * dz) ^ 2 - 4 * dd * (zz - trust_radius ^ 2))) / (2 * dd)
        z + tau • d
      else
        let r1 := r + alpha • (hess_1.mulVec (hess_2.mulVec d))
        if normV r1 < delta then z1
        else
          let beta := (r1 ⬝ᵥ r1) / rr
          let d1 := addScalar (-r1) (beta * dd)
          steihaugLoop hess_1 hess_2 trust_radius delta fuel z1 r1 d1

/-- Source lines 648-691, `trust_solver_steihaug`: Steihaug truncated-CG
solver.  `cg_iter` is the configured `self.cg_iter` iteration cap. -/
noncomputable def trust_solver_steihaug {n k : ℕ} (cg_iter : ℕ) (flat_grad : V n)
    (hess_1 : Matrix (Fin n) (Fin k) ℝ) (hess_2 : Matrix (Fin k) (Fin n) ℝ)
    (trust_radius : ℝ) : V n :=
  let z : V n := 0
  let r := flat_grad
  let d := -r
  let g_norm := normV flat_grad
  let delta := min 0.5 (Real.sqrt g_norm) * g_norm
  let fH := hess_1.vecMul flat_grad
  let Hf := hess_2.mulVec flat_grad
  if fH ⬝ᵥ Hf ≤ 0 then (-trust_radius / normV flat_grad) • flat_grad
  else steihaugLoop hess_1 hess_2 trust_radius delta cg_iter z r d

/-- Source lines 363-386, inner function `phi` of `trust_solver_OBS`: the
secular function `φ(σ) = 1/‖a/(λ+σ)‖ − 1/δ` with componentwise special-casing
below the `obs_tol = 1e-10` threshold.  The Python loop returns
`-1/trust_radius` at the first index with `|a_i| > tol > |t_i|`; since that
value does not depend on the index this is the existence test below. -/
noncomputable def phi {m : ℕ} (trust_radius sigma delta : ℝ) (a lam : Fin m → ℝ) : ℝ :=
  let t := fun i => lam i + sigma
  if (∃ i, |a i| < 1e-10) ∨ (∃ i, |t i| < 1e-10) then
    if ∃ i, 1e-10 < |a i| ∧ |t i| < 1e-10 then -1 / trust_radius
    else
      let llpll2 := ∑ i, if 1e-10 < |a i| ∧ 1e-10 < |t i| then (a i / t i) ^ 2 else 0
      1 / Real.sqrt llpll2 - 1 / delta
  else
    let llpll := normV (fun i => a i / t i)
    1 / llpll - 1 / delta

/-- Source lines 334-361, inner function `phi_phi_T` of `trust_solver_OBS`:
the secular function and its derivative, for the Newton iteration. -/
noncomputable def phi_phi_T {m : ℕ} (trust_radius sigma delta : ℝ) (a lam : Fin m → ℝ) :
    ℝ × ℝ :=
  let t := fun i => lam i + sigma
  if (∃ i, |a i| < 1e-10) ∨ (∃ i, |t i| < 1e-10) then
    if ∃ i, 1e-10 < |a i| ∧ |t i| < 1e-10 then (-1 / trust_radius, 1 / (1e-10 : ℝ))
    else
      let llpll2 := ∑ i, if 1e-10 < |a i| ∧ 1e-10 < |t i| then (a i / t i) ^ 2 else 0
      let llpll_prim := ∑ i, if 1e-10 < |a i| ∧ 1e-10 < |t i| then a i ^ 2 / t i ^ 3 else 0
      let llpll := Real.sqrt |llpll2|
      (1 / llpll - 1 / delta, llpll_prim / llpll ^ 3)
  else
    let llpll := normV (fun i => a i / t i)
    (1 / llpll - 1 / delta, (∑ i, a i ^ 2 / t i ^ 3) / llpll ^ 3)

/-- Source lines 484-492, the `while` loop of inner function `newton_method`,
as a fuel recursion over the remaining iteration budget. -/
noncomputable def newtonLoop {m : ℕ} (trust_radius delta : ℝ) (a lam : Fin m → ℝ) :
    ℕ → ℝ → ℝ
  | 0, s => s
  | fuel + 1, s =>
    let p := phi_phi_T trust_radius s delta a lam
    if 1e-15 < |p.1| then newtonLoop trust_radius delta a lam fuel (s - p.1 / p.2)
    else s

/-- Source lines 471-492, inner function `newton_method` of `trust_solver_OBS`:
Newton iteration on `φ(σ) = 0`, at most `newton_maxit` steps. -/
noncomputable def newton_method {m : ℕ} (newton_maxit : ℕ) (trust_radius : ℝ)
    (sigma delta : ℝ) (a lam : Fin m → ℝ) : ℝ :=
  newtonLoop trust_radius delta a lam newton_maxit sigma

/-- Source lines 388-404, inner function `equation_p1` of `trust_solver_OBS`:
Sherman-Morrison-Woodbury step `p = −(g − Ψ((σ*M + ΨᵀΨ)⁻¹Ψᵀg))/σ*`.
`torch.linalg.solve(Z, f)` is modelled by `Z⁻¹.mulVec f`; on every path the
code exercises, `Z` is nonsingular (the singular case would raise in torch). -/
noncomputable def equation_p1 {n k : ℕ} (psi : Matrix (Fin n) (Fin k) ℝ)
    (M : Matrix (Fin k) (Fin k) ℝ) (sigma_star : ℝ) (flat_grad : V n) : V n :=
  let Z := sigma_star • M + psiᵀ * psi
  let f := psiᵀ.mulVec flat_grad
  let Zf := Z⁻¹.mulVec f
  fun i => -(flat_grad i - psi.mulVec Zf i) / sigma_star

/-- Source lines 406-430, inner function `equation_p2` of `trust_solver_OBS`:
Moore-Penrose pseudoinverse step, dropping components with `|λᵢ+σ| ≤ 1e-10`. -/
noncomputable def equation_p2 {n k : ℕ} (sigma gamma : ℝ) (g : V n)
    (a lam : Fin (k + 1) → ℝ) (P : Matrix (Fin n) (Fin k) ℝ) (g_l : Fin k → ℝ) : V n :=
  let v : Fin (k + 1) → ℝ :=
    fun i => if 1e-10 < |lam i + sigma| then a i / (lam i + sigma) else 0
  let vk : Fin k → ℝ := fun j => v j.castSucc
  if |gamma + sigma| < 1e-10 then fun i => -(P.mulVec vk) i
  else fun i => -(P.mulVec vk) i - (g i - P.mulVec g_l i) / (gamma + sigma)

/-- Candidate null-space vector `e_i − P·(Pᵀ)[:,i]` from the Gram-Schmidt
search of inner function `equation_p3` (source lines 451-466).  A Python index
`i ≥ n` would raise; it is modelled as the zero vector (spec section 9 flags
this boundary condition). -/
noncomputable def gsU {n k : ℕ} (P : Matrix (Fin n) (Fin k) ℝ) (i : ℕ) : V n :=
  if h : i < n then
    (fun x => if x = (⟨i, h⟩ : Fin n) then (1 : ℝ) else 0) - P.mulVec (fun j => P ⟨i, h⟩ j)
  else 0

/-- First index `i ∈ [start, start+count)` whose candidate `gsU P i` has norm
above `1e-10` — the `for i in range(k)` search of source lines 455-463. -/
noncomputable def gsFind {n k : ℕ} (P : Matrix (Fin n) (Fin k) ℝ) : ℕ → ℕ → Option ℕ
  | _, 0 => none
  | i, c + 1 => if 1e-10 < normV (gsU P i) then some i else gsFind P (i + 1) c

/-- Source lines 432-469, inner function `equation_p3` of `trust_solver_OBS`:
hard-case null-space correction `p̂ + α·u_min`. -/
noncomputable def equation_p3 {n k : ℕ} (lam_min delta : ℝ) (p_hat : V n)
    (lam : Fin (k + 1) → ℝ) (P : Matrix (Fin n) (Fin k) ℝ) : V n :=
  let alpha := Real.sqrt (delta ^ 2 - p_hat ⬝ᵥ p_hat)
  -- lam[-2]; Python would raise for k = 0 (never reached: the memory is nonempty)
  let lam_penult : ℝ := if h : 1 ≤ k then lam ⟨k - 1, by omega⟩ else lam 0
  if |lam_min - lam_penult| < 1e-10 then
    let Pcol : V n := if h : 1 ≤ k then (fun i => P i ⟨k - 1, by omega⟩) else 0
    let u_min : V n := fun i => Pcol i / normV Pcol
    p_hat + alpha • u_min
  else
    let u0 : V n :=
      match gsFind P 0 k with
      | some i => gsU P i
      | none =>
        -- found == 0 fallback, `e[j+1] = 1` with j left at the last loop index;
        -- the index is k for k ≥ 1 and 1 for k = 0 (j initialized to 0)
        gsU P (if k = 0 then 1 else k)
    let u_min : V n := fun i => u0 i / normV u0
    p_hat + alpha • u_min

/-- Source lines 315-530, `trust_solver_OBS`: the Orthonormal-Basis exact
trust-region solver.  `lamb_gamma` is the `lamb + gamma` vector passed by
`step` (line 819), `newton_maxit` the configured `self.newton_maxit`. -/
noncomputable def trust_solver_OBS {n k : ℕ} (newton_maxit : ℕ)
    (M : Matrix (Fin k) (Fin k) ℝ) (P : Matrix (Fin n) (Fin k) ℝ)
    (lamb_gamma : Fin k → ℝ) (trust_radius gamma : ℝ) (flat_grad : V n)
    (psi : Matrix (Fin n) (Fin k) ℝ) : V n :=
  let lam_all0 : Fin (k + 1) → ℝ := Fin.snoc lamb_gamma gamma
  -- lam_all = lam_all * (|lam_all| > 1e-10)
  let lam_all : Fin (k + 1) → ℝ := fun i => if 1e-10 < |lam_all0 i| then lam_all0 i else 0
  let lam_min : ℝ := Finset.univ.inf' Finset.univ_nonempty lam_all
  let g_ll : Fin k → ℝ := Pᵀ.mulVec flat_grad
  let gg := flat_grad ⬝ᵥ flat_grad
  let gl_gl := g_ll ⬝ᵥ g_ll
  let lp0 := Real.sqrt |gg - gl_gl|
  let llg_perbll := if lp0 ^ 2 < 1e-10 then 0 else lp0
  let a : Fin (k + 1) → ℝ := Fin.snoc g_ll llg_perbll
  if 0 ≤ phi trust_radius 0 trust_radius a lam_all ∧ 0 < lam_min then
    equation_p1 psi M (gamma + 0) flat_grad
  else if lam_min ≤ 0 ∧ 0 ≤ phi trust_radius (-lam_min) trust_radius a lam_all then
    let p := equation_p2 (-lam_min) gamma flat_grad a lam_all P g_ll
    if lam_min < 0 then equation_p3 lam_min trust_radius p lam_all P else p
  else
    let sigma_star :=
      if 0 < lam_min then newton_method newton_maxit trust_radius 0 trust_radius a lam_all
      else
        let sigma_hat :=
          Finset.univ.sup' Finset.univ_nonempty fun i => |a i| / trust_radius - lam_all i
        if -lam_min < sigma_hat then
          newton_method newton_maxit trust_radius sigma_hat trust_radius a lam_all
        else newton_method newton_maxit trust_radius (-lam_min) trust_radius a lam_all
    equation_p1 psi M (sigma_star + gamma) flat_grad

/-! Embedding of `LSR1.step` (source lines 693-994).

The parameter storage, the closure and the strong-Wolfe search are the
external collaborators of the step controller: the closure/gradient oracle is
a function from the current flat parameter vector to `(loss, flat_grad)`
(`closure()` followed by `_gather_flat_grad`, lines 730-732), and the
strong-Wolfe search `_strong_wolfe` (lines 39-185) is a function from its call
arguments to the returned `(f_new, g_new, t)` (the returned evaluation count
is discarded by `step`, line 901).  The model-building block of the non-restart
branch (lines 783-821: stacking, `calculate_M`, the `torch.linalg.eig`
singularity check, `torch.linalg.solve`, `calculate_hess` and the three solver
invocations it feeds) involves `torch.linalg.eig`/`qr`, whose basis order and
signs are unspecified; it is abstracted as a `Backend` that, given the memory
lists, `gamma`, the trust radius and the gradient, either reports the singular
`M` case (`none`) or returns the three candidate directions together with the
quadratic form `w ↦ (w·L)·(P·w)` used at lines 840-846 and 861-866.  Every
theorem about `step` holds for every backend. -/

/-- Float value with the IEEE special cases that matter for the loss check at
source line 914 (`loss_t > 1000000 or math.isnan(loss_t)`). -/
inductive FVal where
  | val : ℝ → FVal
  | nan : FVal
  | pinf : FVal
  | ninf : FVal

/-- IEEE comparison `x > c` for a float `x` against a finite constant. -/
def FVal.gtR : FVal → ℝ → Prop
  | .val v, c => c < v
  | .nan, _ => False
  | .pinf, _ => True
  | .ninf, _ => False

/-- IEEE `math.isnan`. -/
def FVal.isnan : FVal → Prop
  | .nan => True
  | _ => False

/-- Finiteness of a float value. -/
def FVal.isFinite : FVal → Prop
  | .val _ => True
  | _ => False

/-- Source line 914 with IEEE semantics: the loss-rejection test after the
strong-Wolfe search, `loss_t > 1000000 or math.isnan(loss_t)`. -/
def lossRejected (l : FVal) : Prop := l.gtR 1000000 ∨ l.isnan

/-- Hyperparameters of the optimizer (constructor arguments, lines 222-236,
read back at lines 708-718). -/
structure Config where
  lr : ℝ
  max_iter : ℕ
  tolerance_grad : ℝ
  tolerance_change : ℝ
  tr_radius : ℝ
  memory_size : ℕ
  mu : ℝ
  nu : ℝ
  alpha_S : ℝ
  line_search_fn : Option String
  trust_solver : String

/-- Source lines 253-257: the only validation the constructor performs is the
parameter-group count; every solver name and line-search name is accepted. -/
def initLSR1 (numParamGroups : ℕ) (line_search_fn : Option String)
    (trust_solver : String) : Except String Unit :=
  if numParamGroups ≠ 1 then
    .error "LSR1 does not support per-parameter options (parameter groups)"
  else .ok ()

/-- Arguments of the `_strong_wolfe` invocation at source lines 901-902:
`(obj_func, x_init, t, d, f, g, gtd)`, with the oracle-closing `obj_func`
represented by the base point `x`. -/
structure LSCall (n : ℕ) where
  x : V n
  t : ℝ
  d : V n
  f : ℝ
  g : V n
  gtd : ℝ

/-- Outputs of the abstracted model-building block (lines 804-821): the three
candidate directions the dispatch chooses between, and the quadratic form
`w ↦ (w·L)·(P·w)` of the compact Hessian part. -/
structure ModelOut (n : ℕ) where
  dCauchy : V n
  dSteihaug : V n
  dOBS : V n
  quadForm : V n → ℝ

/-- Abstracted linear-algebra backend for the non-restart model build (lines
783-821): `build old_s old_y gamma trust_radius flat_grad` is `none` when the
eigenvalue test `min |eig M| < 1e-16` fires (lines 798-801) and otherwise
returns the model data. -/
structure Backend (n : ℕ) where
  build : List (V n) → List (V n) → ℝ → ℝ → V n → Option (ModelOut n)

/-- The loop-local variables of `step` that persist across one loop iteration,
together with the flat parameter vector `x` mutated by `_add_grad`. -/
structure Locals (n : ℕ) where
  restart : ℕ
  x : V n
  loss : ℝ
  flat_grad : V n
  dw : V n
  v : V n
  alpha : ℝ
  old_s : List (V n)
  old_y : List (V n)
  prev : Option (V n)
  tr : ℝ
  s : V n
  y : V n
  T : ℝ
  rho : ℝ

/-- The persisted optimizer state dictionary (`self.state`, lines 740-751 and
982-992).  `prev_flat_grad` and `trust_radius` are absent (`None`) before the
first call, which the code tests for (lines 754, 878). -/
structure LState (n : ℕ) where
  restart : ℕ
  d : V n
  v : V n
  alpha : ℝ
  old_s : List (V n)
  old_y : List (V n)
  prev_flat_grad : Option (V n)
  trust_radius : Option ℝ
  s : V n
  y : V n
  T : ℝ
  rho : ℝ

/-- Which `break` statement ended the loop (specification labels only; the
loop treats every `brk` alike, so the labels do not affect the semantics). -/
inductive Reason where
  | singularM | sanity | lsAlpha | lsGrad | lsLoss | lsOpt | fixedOpt
  | emptyMem | smallAred | maxIter
  deriving DecidableEq

/-- Control-flow result of one loop-body iteration. -/
inductive Flow where
  | cont : Flow
  | brk : Reason → Flow

/-- Data available after the direction phase (lines 766-883): the updated
locals, the model data of this iteration, and the quantities read later in
the iteration.  `dPre` is `delta_w` before the descent-ensuring negation at
lines 856-857; `l.dw` is the direction after it. -/
structure Ready (n : ℕ) where
  l : Locals n
  hasModel : Bool
  gamma : ℝ
  dHd : ℝ
  cond_rest : ℝ
  gtd : ℝ
  dPre : V n
  prev_loss : ℝ

/-- Result of the direction phase: an early `break` or the data to advance. -/
inductive P1Out (n : ℕ) where
  | brk1 : Reason → Locals n → P1Out n
  | ready : Ready n → P1Out n

/-- The `_strong_wolfe` call built at source lines 895-902. -/
def mkLSCall {n : ℕ} (r : Ready n) : LSCall n :=
  { x := r.l.x, t := r.l.alpha, d := r.l.dw, f := r.l.loss, g := r.l.flat_grad, gtd := r.gtd }

/-- Source lines 814-821: the SOLVE dispatch.  Three independent `if`
statements and no `else`: a name matching none of the three leaves `delta_w`
at its previous value. -/
def dispatch {n : ℕ} (trust_solver : String) (md : ModelOut n) (dPrev : V n) : V n :=
  let d := if trust_solver = "Cauchy_Point_Calculation" then md.dCauchy else dPrev
  let d := if trust_solver = "Steihaug_cg" then md.dSteihaug else d
  if trust_solver = "OBS" then md.dOBS else d

/-- Source lines 822-883: momentum blending, orthogonality sanity check,
current-model quadratic values, descent negation, step-size guess and
previous-gradient bookkeeping.  `qf` is `some` exactly when `L` is a matrix
(`len(L.shape) != 1`, lines 840 and 861), i.e. on model iterations. -/
noncomputable def phase1b {n : ℕ} (cfg : Config) (l : Locals n)
    (qf : Option (V n → ℝ)) (gamma : ℝ) : P1Out n :=
  let v1 := cfg.mu • l.v - (cfg.nu * cfg.alpha_S) • l.flat_grad + (1 - cfg.nu) • l.s
  let v2 := min 1 (l.tr / normV v1) • v1
  let d1 := (1 - cfg.nu) • l.dw + cfg.mu • v2
  let d2 := min 1 (l.tr / normV d1) • d1
  let dg := |d2 ⬝ᵥ l.flat_grad|
  let d_norm := |normV d2|
  let g_norm := |normV l.flat_grad|
  if min dg (dg / d_norm) < g_norm * 5e-10 then
    .brk1 .sanity { l with v := v2, dw := d2, restart := 1 }
  else
    let dHd :=
      match qf with
      | some q => q d2 + gamma * (d2 ⬝ᵥ d2)
      | none => gamma * (d2 ⬝ᵥ d2)
    let gtd := l.flat_grad ⬝ᵥ d2
    let d3 := if 0 < gtd then -d2 else d2
    let s1 := d3
    let cond_rest :=
      match qf with
      | some q => q s1 + gamma * (s1 ⬝ᵥ s1)
      | none => gamma * (s1 ⬝ᵥ s1)
    let alpha := if l.restart = 1 then min 1 (1 / asum l.flat_grad) * cfg.lr else cfg.lr
    let l1 := { l with v := v2, dw := d3, s := s1, alpha := alpha, prev := some l.flat_grad }
    .ready { l := l1, hasModel := qf.isSome, gamma := gamma, dHd := dHd,
             cond_rest := cond_rest, gtd := gtd, dPre := d2, prev_loss := l.loss }

/-- Source lines 766-883: the direction phase of one loop iteration — restart
branch (lines 766-780) or model branch (lines 781-821) — followed by
`phase1b`. -/
noncomputable def phase1 {n : ℕ} (cfg : Config) (bk : Backend n) (l : Locals n) : P1Out n :=
  if l.restart = 1 then
    let l1 := { l with restart := 0, dw := -l.flat_grad, old_s := ([] : List (V n)),
                       old_y := ([] : List (V n)), v := 0, s := 0, y := 0, T := 0, rho := 0 }
    -- P = ones(1), L = ones(1), gamma = 1: L is one-dimensional, no model
    phase1b cfg l1 none 1
  else
    let sm := l.old_s.getLast?.getD 0
    let ym := l.old_y.getLast?.getD 0
    let g_1 := (sm ⬝ᵥ ym) / (ym ⬝ᵥ ym)
    let g_2 := (sm ⬝ᵥ sm) / (sm ⬝ᵥ ym)
    let gamma := max 0.1 (max g_1 g_2)
    match bk.build l.old_s l.old_y gamma l.tr l.flat_grad with
    | none => .brk1 .singularM { l with restart := 1 }
    | some md => phase1b cfg { l with dw := dispatch cfg.trust_solver md l.dw } (some md.quadForm) gamma

/-- Source lines 943-980: curvature-pair scaling, memory offer, ratio test and
radius update, then the final `n_iter == max_iter` break. -/
noncomputable def afterStep {n : ℕ} (cfg : Config) (n_iter : ℕ) (r : Ready n)
    (l : Locals n) : Flow × Locals n :=
  let s2 := l.alpha • l.s
  let y2 := l.flat_grad - l.prev.getD 0
  let cr := l.alpha * r.cond_rest
  let osy := update_SY cfg.memory_size s2 y2 l.old_s l.old_y cr
  let l1 := { l with s := s2, y := y2, old_s := osy.1, old_y := osy.2 }
  if osy.1 = [] then (.brk .emptyMem, { l1 with restart := 1 })
  else
    let ared := r.prev_loss - l1.loss
    if |ared| < cfg.tolerance_change then (.brk .smallAred, { l1 with restart := 1 })
    else
      let pred := l1.loss + l1.flat_grad ⬝ᵥ l1.dw + 0.5 * r.dHd
      let rr := ared / pred
      let urad := update_radius rr l1.tr l1.s l1.T l1.rho
      let l2 := { l1 with tr := urad.1, rho := urad.2.1, T := urad.2.2 }
      if n_iter = cfg.max_iter then (.brk .maxIter, l2) else (.cont, l2)

/-- Source lines 885-941: the gradient step — strong-Wolfe line search with
its rejection guards (lines 890-927), or the fixed step with conditional
re-evaluation (lines 928-940) — followed by `afterStep`. -/
noncomputable def advance {n : ℕ} [NeZero n] (cfg : Config)
    (oracle : V n → ℝ × V n) (ls : LSCall n → ℝ × V n × ℝ) (n_iter : ℕ)
    (r : Ready n) : Except String (Flow × Locals n) :=
  match cfg.line_search_fn with
  | some name =>
    if name ≠ "strong_wolfe" then .error "only strong_wolfe is supported"
    else
      let out := ls (mkLSCall r)
      let loss_t := out.1
      let flat_grad_t := out.2.1
      let alpha_t := out.2.2
      if alpha_t < 1e-12 ∨ 1000000 < alpha_t then .ok (.brk .lsAlpha, { r.l with restart := 1 })
      else
        let check_grad := normV flat_grad_t
        if check_grad < 1e-12 ∨ 1000000 < check_grad then
          .ok (.brk .lsGrad, { r.l with restart := 1 })
        else if 1000000 < loss_t then
          -- line 914 also tests `math.isnan(loss_t)`; see `lossRejected` for
          -- the float-level form of this guard
          .ok (.brk .lsLoss, { r.l with restart := 1 })
        else
          let l1 := { r.l with loss := loss_t, flat_grad := flat_grad_t, alpha := alpha_t }
          let opt_cond := linf flat_grad_t ≤ cfg.tolerance_grad
          let l2 := { l1 with x := l1.x + l1.alpha • l1.dw }
          if opt_cond then .ok (.brk .lsOpt, { l2 with restart := 1 })
          else .ok (afterStep cfg n_iter r l2)
  | none =>
    let l1 := { r.l with x := r.l.x + r.l.alpha • r.l.dw }
    if n_iter ≠ cfg.max_iter then
      let ev := oracle l1.x
      let l2 := { l1 with loss := ev.1, flat_grad := ev.2 }
      if linf ev.2 ≤ cfg.tolerance_grad then .ok (.brk .fixedOpt, { l2 with restart := 1 })
      else .ok (afterStep cfg n_iter r l2)
    else .ok (afterStep cfg n_iter r l1)

/-- One iteration of the `while n_iter < max_iter` loop body (lines 761-980),
with `n_iter` already incremented as at line 762. -/
noncomputable def body {n : ℕ} [NeZero n] (cfg : Config) (bk : Backend n)
    (oracle : V n → ℝ × V n) (ls : LSCall n → ℝ × V n × ℝ) (n_iter : ℕ)
    (l : Locals n) : Except String (Flow × Locals n) :=
  match phase1 cfg bk l with
  | .brk1 reason l1 => .ok (.brk reason, l1)
  | .ready r => advance cfg oracle ls n_iter r

/-- The `while n_iter < max_iter` loop (line 761), as a fuel recursion with
`fuel = max_iter − n_iter`. -/
noncomputable def loopIter {n : ℕ} [NeZero n] (cfg : Config) (bk : Backend n)
    (oracle : V n → ℝ × V n) (ls : LSCall n → ℝ × V n × ℝ) :
    ℕ → ℕ → Locals n → Except String (Locals n)
  | 0, _, l => .ok l
  | fuel + 1, n_iter, l =>
    match body cfg bk oracle ls (n_iter + 1) l with
    | .error e => .error e
    | .ok (.brk _, l1) => .ok l1
    | .ok (.cont, l1) => loopIter cfg bk oracle ls fuel (n_iter + 1) l1

/-- Source lines 982-992: the write-back of the loop locals into the state
dictionary (line 986 stores the final `flat_grad` as `prev_flat_grad`). -/
def writeback {n : ℕ} (l : Locals n) : LState n :=
  { restart := l.restart, d := l.dw, v := l.v, alpha := l.alpha, old_s := l.old_s,
    old_y := l.old_y, prev_flat_grad := some l.flat_grad, trust_radius := some l.tr,
    s := l.s, y := l.y, T := l.T, rho := l.rho }

/-- Source lines 693-994, `step`: evaluate the closure at the current point,
return immediately when the gradient is already below `tolerance_grad`
(lines 733-738), otherwise run the outer loop and write the state back.  The
returned triple is `(orig_loss, state, parameters)`; line 994 returns
`orig_loss`, the loss evaluated at entry.  `state.setdefault('restart', 1)`
at line 725 is the identity on the (total) state record. -/
noncomputable def step {n : ℕ} [NeZero n] (cfg : Config) (bk : Backend n)
    (oracle : V n → ℝ × V n) (ls : LSCall n → ℝ × V n × ℝ) (st : LState n)
    (x : V n) : Except String (ℝ × LState n × V n) :=
  let orig_loss := (oracle x).1
  let flat_grad := (oracle x).2
  let opt_cond := linf flat_grad ≤ cfg.tolerance_grad
  if opt_cond then .ok (orig_loss, st, x)
  else
    let tr := st.trust_radius.getD cfg.tr_radius
    let init : Locals n :=
      { restart := st.restart, x := x, loss := orig_loss, flat_grad := flat_grad,
        dw := st.d, v := st.v, alpha := st.alpha, old_s := st.old_s, old_y := st.old_y,
        prev := st.prev_flat_grad, tr := tr, s := st.s, y := st.y, T := st.T, rho := st.rho }
    match loopIter cfg bk oracle ls cfg.max_iter 0 init with
    | .error e => .error e
    | .ok l => .ok (orig_loss, writeback l, l.x)

/-! Projections and concrete instances used to evaluate the embedding on
explicit inputs. -/

/-- The step-size guess of a direction-phase result, when it reached the
advance phase. -/
def P1Out.alphaOf {n : ℕ} : P1Out n → Option ℝ
  | .ready r => some r.l.alpha
  | .brk1 _ _ => none

/-- Rejection condition of the three guards at source lines 907-916, in terms
of the `(loss_t, flat_grad_t, alpha_t)` returned by the search (real-arithmetic
projection; the NaN part of line 914 is `lossRejected`). -/
noncomputable def lsRejectCond {n : ℕ} (out : ℝ × V n × ℝ) : Prop :=
  out.2.2 < 1e-12 ∨ 1000000 < out.2.2 ∨ normV out.2.1 < 1e-12 ∨
    1000000 < normV out.2.1 ∨ 1000000 < out.1

/-- Statement of the amended claim about the post-search rejection guards: a
guard-rejected iteration breaks the loop with a pending restart and the locals
otherwise untouched (so no memory offer, no radius update, no parameter
update), the rejection happens exactly when the real-arithmetic guard
condition holds, and at float level the loss test of line 914 accepts `-inf`
while rejecting `NaN`, `+inf` and values above `1e6`. -/
noncomputable def lsGuardConcl {n : ℕ} [NeZero n] (cfg : Config)
    (oracle : V n → ℝ × V n) (ls : LSCall n → ℝ × V n × ℝ) (n_iter : ℕ)
    (r : Ready n) : Prop :=
  (lsRejectCond (ls (mkLSCall r)) →
    ∃ q, (q = Reason.lsAlpha ∨ q = Reason.lsGrad ∨ q = Reason.lsLoss) ∧
      advance cfg oracle ls n_iter r = .ok (.brk q, { r.l with restart := 1 })) ∧
  (¬ lsRejectCond (ls (mkLSCall r)) →
    ∀ (q : Reason) (l1 : Locals n), advance cfg oracle ls n_iter r = .ok (.brk q, l1) →
      q ≠ Reason.lsAlpha ∧ q ≠ Reason.lsGrad ∧ q ≠ Reason.lsLoss) ∧
  (∀ c : ℝ, lossRejected (.val c) ↔ 1000000 < c) ∧
  lossRejected .pinf ∧ ¬ lossRejected .ninf

/-- A backend that is never consulted on the executions below (they stay on
the restart branch); any value works there. -/
def bkNone (n : ℕ) : Backend n := ⟨fun _ _ _ _ _ => none⟩

/-- An arbitrary line-search function for executions that never invoke the
search (`line_search_fn = none`). -/
def lsId (n : ℕ) : LSCall n → ℝ × V n × ℝ := fun c => (c.f, c.g, c.t)

/-- Fresh optimizer state, as after `state.setdefault('restart', 1)` on the
first-ever call: no stored tensors, no trust radius, restart pending. -/
noncomputable def stFresh (n : ℕ) : LState n :=
  { restart := 1, d := 0, v := 0, alpha := 0, old_s := [], old_y := [],
    prev_flat_grad := none, trust_radius := none, s := 0, y := 0, T := 0, rho := 0 }

/-- Configuration for the concrete fixed-step executions: `lr = 1`,
`max_iter = 2`, `tolerance_grad = 1/2`, `tr_radius = 10`, momentum off,
no line search. -/
noncomputable def cfgFix : Config :=
  { lr := 1, max_iter := 2, tolerance_grad := 1/2, tolerance_change := 1e-15,
    tr_radius := 10, memory_size := 3, mu := 0, nu := 0, alpha_S := 0,
    line_search_fn := none, trust_solver := "OBS" }

/-- The same configuration with a trust-solver name that matches no variant. -/
noncomputable def cfgFoo : Config := { cfgFix with trust_solver := "foo" }

/-- A one-parameter closure: loss 10 and gradient 1 at the start point `x = 3`,
loss 5 and gradient 0 everywhere else. -/
noncomputable def oracleC2 : V 1 → ℝ × V 1 :=
  fun x => if x 0 = 3 then (10, fun _ => 1) else (5, fun _ => 0)

/-- Start point of the concrete executions. -/
noncomputable def xC2 : V 1 := fun _ => 3

/-- Locals at the top of a restart iteration with gradient `[2]`, used for the
step-size-guess claim: `‖g‖₁ = 2`, so the claimed restart scaling would give
`min(1, 1/2)·lr = 1/2`. -/
noncomputable def lC7 : Locals 1 :=
  { restart := 1, x := fun _ => 0, loss := 10, flat_grad := fun _ => 2, dw := 0,
    v := 0, alpha := 0, old_s := [], old_y := [], prev := none, tr := 10,
    s := 0, y := 0, T := 0, rho := 0 }

/-- Configuration for the line-search-path fragments: momentum off, strong
Wolfe enabled. -/
noncomputable def cfgLS : Config := { cfgFix with line_search_fn := some "strong_wolfe" }

/-- Locals at the top of a restart iteration with gradient `[1]`, used to
witness the direction-phase statements. -/
noncomputable def lC10 : Locals 1 :=
  { restart := 1, x := fun _ => 0, loss := 5, flat_grad := fun _ => 1, dw := 0,
    v := 0, alpha := 0, old_s := [], old_y := [], prev := none, tr := 10,
    s := 0, y := 0, T := 0, rho := 0 }

/-- The direction-phase output `phase1 cfgLS (bkNone 1) lC10` computes. -/
noncomputable def rC10 : Ready 1 :=
  { l := { restart := 0, x := fun _ => 0, loss := 5, flat_grad := fun _ => 1,
           dw := fun _ => -1, v := 0, alpha := 1, old_s := [], old_y := [],
           prev := some fun _ => 1, tr := 10, s := fun _ => -1, y := 0, T := 0, rho := 0 },
    hasModel := false, gamma := 1, dHd := 1, cond_rest := 1, gtd := -1,
    dPre := fun _ => -1, prev_loss := 5 }

/-- Gradient for the Cauchy-point counterexample: unit vector. -/
noncomputable def gC4 : V 2 := ![1, 0]

/-- Compact factor `L = lamb * P` with `λ = 0`: the zero column. -/
noncomputable def h1C4 : Matrix (Fin 2) (Fin 1) ℝ := Matrix.of ![![0], ![0]]

/-- Compact factor `Pᵀ` with basis column `(1, 0)`. -/
noncomputable def h2C4 : Matrix (Fin 1) (Fin 2) ℝ := Matrix.of ![![1, 0]]

/-- Gradient for the Steihaug CG-update evaluation: `(3, 4)`, `‖g‖ = 5`. -/
noncomputable def gC5 : V 2 := ![3, 4]

/-- Hessian factor `diag(10, 1/10)` for the Steihaug evaluation. -/
noncomputable def h1C5 : Matrix (Fin 2) (Fin 2) ℝ := Matrix.of ![![10, 0], ![0, 1/10]]

/-- Second Hessian factor: the identity, so `B = h1C5`. -/
noncomputable def h2C5 : Matrix (Fin 2) (Fin 2) ℝ := 1

/-- CG iterate after the first Steihaug iteration on `(gC5, h1C5, h2C5)`. -/
noncomputable def z1C5 : V 2 := ![-375/458, -250/229]

/-- CG residual after the first Steihaug iteration. -/
noncomputable def r1C5 : V 2 := ![-1188/229, 891/229]

/-- The direction the source code actually builds at line 690
(`d = -r + beta * dd`, a scalar broadcast). -/
noncomputable def dBugC5 : V 2 := ![2477277/52441, 2001186/52441]

/-- The direction the standard CG update `d = -r + beta * d` would build. -/
noncomputable def dCgC5 : V 2 := ![7425/52441, -556875/52441]

/-- Eigenvalue-plus-gamma entry for the OBS counterexample: `2·10⁻¹⁰`, just
above the `1e-10` mask but pairing with a dropped coefficient. -/
noncomputable def lamC1 : ℝ := 1/5000000000 - 1/25

/-- Compact matrix `M = [25/λ]` of the OBS counterexample model. -/
noncomputable def MC1 : Matrix (Fin 1) (Fin 1) ℝ := Matrix.of ![![25 / lamC1]]

/-- Orthonormal basis column `(3/5, 4/5)` of the OBS counterexample model. -/
noncomputable def PC1 : Matrix (Fin 2) (Fin 1) ℝ := Matrix.of ![![3/5], ![4/5]]

/-- The `lamb + gamma` vector `[2·10⁻¹⁰]` of the OBS counterexample model. -/
noncomputable def lambC1 : Fin 1 → ℝ := fun _ => 1/5000000000

/-- Compact directions matrix `Ψ = (3, 4)ᵀ` of the OBS counterexample model. -/
noncomputable def psiC1 : Matrix (Fin 2) (Fin 1) ℝ := Matrix.of ![![3], ![4]]

/-- Gradient of the OBS counterexample: `9·10⁻¹¹·P − 2·10⁻⁵·P⊥` components. -/
noncomputable def gC1 : V 2 := ![-7999973/500000000000, 6000036/500000000000]

/-- Implicit SR1 Hessian of the OBS counterexample model applied to a vector:
`B v = γ v + λ·P(Pᵀv)`; here `ΨM⁻¹Ψᵀ = λ·PPᵀ` because `Ψ = 5·P` and
`M = 25/λ`. -/
noncomputable def BC1 (v : V 2) : V 2 :=
  (1/25 : ℝ) • v + lamC1 • PC1.mulVec (PC1ᵀ.mulVec v)

/-- Oracle that is converged everywhere: loss 5, zero gradient. -/
noncomputable def oracle9 : V 1 → ℝ × V 1 := fun _ => (5, 0)

/-- The state dictionary written back by the concrete fixed-step execution of
`step cfgFix (bkNone 1) oracleC2 (lsId 1) (stFresh 1) xC2`: one restart
iteration moves `x` from 3 to 2, the re-evaluation there converges
(gradient 0), and the loop breaks with a pending restart. -/
noncomputable def stC2 : LState 1 :=
  { restart := 1, d := fun _ => -1, v := 0, alpha := 1, old_s := [], old_y := [],
    prev_flat_grad := some fun _ => 0, trust_radius := some 10, s := fun _ => -1,
    y := 0, T := 0, rho := 0 }

/-! Shared helper lemmas. -/

theorem dot_self_nonneg {m : ℕ} (v : V m) : 0 ≤ v ⬝ᵥ v :=
  Finset.sum_nonneg fun _ _ => mul_self_nonneg _

theorem normV_nonneg {m : ℕ} (v : V m) : 0 ≤ normV v := Real.sqrt_nonneg _

theorem sq_normV {m : ℕ} (v : V m) : normV v ^ 2 = v ⬝ᵥ v :=
  Real.sq_sqrt (dot_self_nonneg v)

theorem normV_le_of_dot_le {m : ℕ} {v : V m} {c : ℝ} (hc : 0 ≤ c)
    (h : v ⬝ᵥ v ≤ c ^ 2) : normV v ≤ c := by
  have := Real.sqrt_le_sqrt h
  rwa [Real.sqrt_sq hc] at this

theorem dot_lt_of_normV_lt {m : ℕ} {v : V m} {c : ℝ} (hc : 0 < c)
    (h : normV v < c) : v ⬝ᵥ v < c ^ 2 := (Real.sqrt_lt' hc).mp h

theorem normV_smul {m : ℕ} (c : ℝ) (v : V m) : normV (c • v) = |c| * normV v := by
  unfold normV
  rw [Matrix.smul_dotProduct, Matrix.dotProduct_smul, smul_eq_mul, smul_eq_mul, ← mul_assoc,
    ← sq, Real.sqrt_mul (sq_nonneg c), Real.sqrt_sq_eq_abs]

theorem dot_one_dim (v w : V 1) : v ⬝ᵥ w = v 0 * w 0 := by
  simp [Matrix.dotProduct]

theorem linf_one_dim (v : V 1) : linf v = |v 0| := by
  have : (Finset.univ : Finset (Fin 1)) = {0} := rfl
  simp [linf, this]

theorem normV_one_dim (v : V 1) : normV v = |v 0| := by
  rw [normV, dot_one_dim, Real.sqrt_mul_self_eq_abs]

/-! Claim C3: `update_SY` contract (reject below threshold with no side
effect, FIFO eviction at capacity, bounded equal lengths). -/

/-- C3: a call of `update_SY` with `y·s + cond_rest ≤ 1e-10` leaves the stored
lists unchanged; an accepting call at capacity drops index 0 from both lists
and appends the new pair; and after any call the lists have equal length at
most `memory_size` (the Python `pop(0)` requires `memory_size ≥ 1`; with
`memory_size = 0` a full accepted offer would raise `IndexError`). -/
theorem update_SY_contract {n : ℕ} (memory_size : ℕ) (s y : V n)
    (old_s old_y : List (V n)) (cond_rest : ℝ)
    (hm : 1 ≤ memory_size) (hlen : old_s.length = old_y.length)
    (hle : old_s.length ≤ memory_size) :
    (y ⬝ᵥ s + cond_rest ≤ 1e-10 →
      update_SY memory_size s y old_s old_y cond_rest = (old_s, old_y)) ∧
    (1e-10 < y ⬝ᵥ s + cond_rest → old_s.length = memory_size →
      update_SY memory_size s y old_s old_y cond_rest
        = (old_s.drop 1 ++ [s], old_y.drop 1 ++ [y])) ∧
    ((update_SY memory_size s y old_s old_y cond_rest).1.length
        = (update_SY memory_size s y old_s old_y cond_rest).2.length ∧
      (update_SY memory_size s y old_s old_y cond_rest).1.length ≤ memory_size) := by
  refine ⟨fun h => ?_, fun h hfull => ?_, ?_⟩
  · simp only [update_SY]
    rw [if_neg (not_lt.mpr h)]
  · simp only [update_SY]
    rw [if_pos h, if_pos hfull]
  · simp only [update_SY]
    split_ifs with h1 h2
    · simp only [List.length_append, List.length_drop, List.length_singleton]
      omega
    · simp only [List.length_append, List.length_singleton]
      omega
    · exact ⟨hlen, hle⟩

/-- Witness for C3 at a concrete accepted offer into a full memory of size 1. -/
theorem update_SY_contract_witness :
    update_SY 1 (fun _ => (1 : ℝ)) (fun _ => (1 : ℝ))
        [fun _ => (2 : ℝ)] [fun _ => (3 : ℝ)] 0
      = ([(fun _ => (1 : ℝ) : V 1)], [(fun _ => (1 : ℝ) : V 1)]) := by
  have h := (update_SY_contract (n := 1) 1 (fun _ => (1 : ℝ)) (fun _ => (1 : ℝ))
    [fun _ => (2 : ℝ)] [fun _ => (3 : ℝ)] 0 le_rfl rfl le_rfl).2.1
  have hd : ((fun _ => (1 : ℝ)) : V 1) ⬝ᵥ ((fun _ => (1 : ℝ)) : V 1) + (0 : ℝ) = 1 := by
    rw [dot_one_dim]; norm_num
  rw [h (by rw [hd]; norm_num) rfl]
  simp

/-! Claim C9: idempotence of `step` after convergence. -/

/-- C9: when the gradient at entry is already below `tolerance_grad`, `step`
returns the loss evaluated at entry and leaves the state dictionary and the
parameter vector untouched. -/
theorem step_converged_frame {n : ℕ} [NeZero n] (cfg : Config) (bk : Backend n)
    (oracle : V n → ℝ × V n) (ls : LSCall n → ℝ × V n × ℝ) (st : LState n) (x : V n)
    (h : linf (oracle x).2 ≤ cfg.tolerance_grad) :
    step cfg bk oracle ls st x = .ok ((oracle x).1, st, x) := by
  unfold step
  rw [if_pos h]

/-- Witness for C9 at the converged oracle. -/
theorem step_converged_frame_witness :
    step cfgFix (bkNone 1) oracle9 (lsId 1) (stFresh 1) (fun _ => 0)
      = .ok (5, stFresh 1, fun _ => 0) := by
  have h : linf (oracle9 (fun _ => 0)).2 ≤ cfgFix.tolerance_grad := by
    rw [linf_one_dim]
    norm_num [oracle9, cfgFix]
  simpa [oracle9] using
    step_converged_frame cfgFix (bkNone 1) oracle9 (lsId 1) (stFresh 1) (fun _ => 0) h

/-! Claim C2: what `step` returns. -/

/-- C2 (amended): whenever `step` returns normally it returns `orig_loss`, the
loss evaluated at entry (source line 994), regardless of any oracle
evaluations the loop performed. -/
theorem step_returns_entry_loss {n : ℕ} [NeZero n] (cfg : Config) (bk : Backend n)
    (oracle : V n → ℝ × V n) (ls : LSCall n → ℝ × V n × ℝ) (st : LState n) (x : V n)
    (out : ℝ × LState n × V n) (h : step cfg bk oracle ls st x = .ok out) :
    out.1 = (oracle x).1 := by
  simp only [step] at h
  split at h
  · cases h
    rfl
  · split at h
    · cases h
    · cases h
      rfl

/-- Witness for C2 (amended) at a converged entry. -/
theorem step_returns_entry_loss_witness :
    ((5 : ℝ), stFresh 1, (fun _ => 0 : V 1)).1 = (oracle9 (fun _ => 0)).1 := by
  have hc : linf (oracle9 (fun _ => 0)).2 ≤ cfgFix.tolerance_grad := by
    rw [linf_one_dim]
    norm_num [oracle9, cfgFix]
  have h : step cfgFix (bkNone 1) oracle9 (lsId 1) (stFresh 1) (fun _ => 0)
      = .ok (5, stFresh 1, fun _ => 0) := by
    simp only [step]
    rw [if_pos hc]
    simp [oracle9]
  exact step_returns_entry_loss cfgFix (bkNone 1) oracle9 (lsId 1) (stFresh 1)
    (fun _ => 0) _ h

/-- C2 (counterexample): a concrete fixed-step execution.  One restart
iteration moves the parameter from 3 to 2, the oracle re-evaluation there
returns loss 5 (and gradient 0, which converges and breaks the loop), yet
`step` returns 10, the loss evaluated at entry — not the most recent
successfully evaluated loss 5. -/
theorem step_returns_entry_loss_cx :
    step cfgFix (bkNone 1) oracleC2 (lsId 1) (stFresh 1) xC2
        = .ok (10, stC2, fun _ => 2) ∧
    (oracleC2 fun _ => 2).1 = 5 ∧ (10 : ℝ) ≠ 5 := by
  refine ⟨?_, by norm_num [oracleC2], by norm_num⟩
  have hm : cfgFix.max_iter = Nat.succ 1 := rfl
  simp only [step, hm, loopIter, body, phase1, phase1b, advance, afterStep, writeback,
    dispatch, cfgFix, stFresh, oracleC2, xC2, stC2, linf_one_dim]
  norm_num [normV_one_dim, dot_one_dim, Pi.add_apply, Pi.smul_apply, Pi.neg_apply,
    smul_eq_mul, funext_iff, Fin.forall_fin_one, Prod.mk.injEq, LState.mk.injEq,
    xC2, Pi.sub_apply]

/-! Claim C6: invalid trust-solver names. -/

/-- C6 (amended): an invalid `trust_solver` name is never reported: the
constructor validates only the parameter-group count, and the SOLVE dispatch
(three independent `if` statements, no `else`) leaves the direction at its
previous value when the name matches no variant. -/
theorem invalid_solver_not_fatal :
    (∀ (lsf : Option String) (ts : String), initLSR1 1 lsf ts = .ok ()) ∧
    (∀ (n : ℕ) (md : ModelOut n) (dPrev : V n) (ts : String),
      ts ≠ "Cauchy_Point_Calculation" → ts ≠ "Steihaug_cg" → ts ≠ "OBS" →
      dispatch ts md dPrev = dPrev) := by
  constructor
  · intro lsf ts
    simp [initLSR1]
  · intro n md dPrev ts h1 h2 h3
    simp [dispatch, h1, h2, h3]

/-- An arbitrary model output, to instantiate the dispatch statement. -/
noncomputable def mdW : ModelOut 1 := ⟨0, 0, 0, fun _ => 0⟩

/-- Witness for C6 (amended) at the name `"foo"`. -/
theorem invalid_solver_not_fatal_witness :
    initLSR1 1 none "foo" = .ok () ∧ dispatch "foo" mdW 0 = 0 :=
  ⟨invalid_solver_not_fatal.1 none "foo",
    invalid_solver_not_fatal.2 1 mdW 0 "foo" (by decide) (by decide) (by decide)⟩

/-- C6 (counterexample): with `trust_solver = "foo"`, construction succeeds,
`step` raises no error, and the outer loop proceeds past the SOLVE dispatch
using the restart direction `−g` (the parameter moves from 3 to 2). -/
theorem invalid_solver_cx :
    initLSR1 1 none "foo" = .ok () ∧
    step cfgFoo (bkNone 1) oracleC2 (lsId 1) (stFresh 1) xC2
        = .ok (10, stC2, fun _ => 2) ∧
    (fun _ => (2 : ℝ)) ≠ xC2 := by
  refine ⟨by simp [initLSR1], ?_, fun h => by have := congrFun h 0; norm_num [xC2] at this⟩
  have hm : cfgFoo.max_iter = Nat.succ 1 := rfl
  simp only [step, hm, loopIter, body, phase1, phase1b, advance, afterStep, writeback,
    dispatch, cfgFoo, cfgFix, stFresh, oracleC2, xC2, stC2, linf_one_dim]
  norm_num [normV_one_dim, dot_one_dim, Pi.add_apply, Pi.smul_apply, Pi.neg_apply,
    smul_eq_mul, funext_iff, Fin.forall_fin_one, Prod.mk.injEq, LState.mk.injEq,
    xC2, Pi.sub_apply]

/-! Claims C7 and C10: the direction phase. -/

/-- Helper: `phase1b` reaches the advance phase only with the step-size guess
computed by the `if state['restart'] == 1` test on the restart value the locals
hold at line 871. -/
theorem phase1b_ready_alpha {n : ℕ} (cfg : Config) (l : Locals n)
    (qf : Option (V n → ℝ)) (gamma : ℝ) (r : Ready n)
    (h : phase1b cfg l qf gamma = .ready r) :
    r.l.alpha = (if l.restart = 1 then min 1 (1 / asum l.flat_grad) * cfg.lr else cfg.lr) := by
  simp only [phase1b] at h
  split at h
  · cases h
  · injection h with h1
    subst h1
    rfl

/-- C7 (amended): the initial step length handed to the line search equals
`lr` on every iteration that reaches it, restart iterations included: the
restart branch clears the flag (line 767) before line 871 reads it, so the
`min(1, 1/‖g‖₁)·lr` branch is dead code. -/
theorem ls_initial_step_always_lr {n : ℕ} (cfg : Config) (bk : Backend n)
    (l : Locals n) (r : Ready n) (h : phase1 cfg bk l = .ready r) :
    r.l.alpha = cfg.lr := by
  simp only [phase1] at h
  split at h
  · rw [phase1b_ready_alpha _ _ _ _ _ h]
    rfl
  · rename_i hres
    split at h
    · cases h
    · rw [phase1b_ready_alpha _ _ _ _ _ h]
      simp [hres]

theorem asum_one_dim (v : V 1) : asum v = |v 0| := by
  simp [asum]

/-- C7 (counterexample): on a concrete restart iteration with `‖g‖₁ = 2` and
`lr = 1`, the step-size guess that reaches the search is `1`, not the claimed
`min(1, 1/‖g‖₁)·lr = 1/2`. -/
theorem ls_initial_step_cx :
    (phase1 cfgLS (bkNone 1) lC7).alphaOf = some 1 ∧
    min 1 (1 / asum lC7.flat_grad) * cfgLS.lr = 1 / 2 ∧ (1 : ℝ) ≠ 1 / 2 := by
  refine ⟨?_, ?_, by norm_num⟩
  · simp only [phase1, phase1b, cfgLS, cfgFix, lC7, P1Out.alphaOf]
    norm_num [normV_one_dim, dot_one_dim, Pi.neg_apply, P1Out.alphaOf]
  · rw [asum_one_dim]
    norm_num [lC7, cfgLS, cfgFix]

/-- Helper: evaluation of the direction phase on the concrete restart locals
`lC10` (gradient `[1]`, momentum off). -/
theorem phase1_lC10 : phase1 cfgLS (bkNone 1) lC10 = .ready rC10 := by
  simp only [phase1, phase1b, cfgLS, cfgFix, lC10, rC10]
  norm_num [normV_one_dim, dot_one_dim, Pi.neg_apply, funext_iff, Fin.forall_fin_one,
    Ready.mk.injEq, Locals.mk.injEq, Pi.smul_apply, smul_eq_mul]

/-- Witness for C7 (amended) on the concrete restart iteration `lC10`. -/
theorem ls_initial_step_always_lr_witness : rC10.l.alpha = cfgLS.lr :=
  ls_initial_step_always_lr cfgLS (bkNone 1) lC10 rC10 phase1_lC10

/-- C10: the `gtd` argument of the strong-Wolfe call is the directional
derivative of the direction before the descent-ensuring negation at lines
856-857; when that negation fires (`gtd > 0`), the search still receives the
original positive `gtd` together with the negated direction. -/
theorem wolfe_gtd_prenegation {n : ℕ} (cfg : Config) (bk : Backend n)
    (l : Locals n) (r : Ready n) (h : phase1 cfg bk l = .ready r) :
    r.gtd = r.l.flat_grad ⬝ᵥ r.dPre ∧
    r.l.dw = (if 0 < r.gtd then -r.dPre else r.dPre) ∧
    mkLSCall r = { x := r.l.x, t := r.l.alpha, d := r.l.dw, f := r.l.loss,
                   g := r.l.flat_grad, gtd := r.gtd } := by
  have key : ∀ (l1 : Locals n) (qf : Option (V n → ℝ)) (gamma : ℝ),
      phase1b cfg l1 qf gamma = .ready r →
      r.gtd = r.l.flat_grad ⬝ᵥ r.dPre ∧
      r.l.dw = (if 0 < r.gtd then -r.dPre else r.dPre) := by
    intro l1 qf gamma hb
    simp only [phase1b] at hb
    split at hb
    · cases hb
    · injection hb with h1
      subst h1
      exact ⟨rfl, rfl⟩
  simp only [phase1] at h
  split at h
  · exact ⟨(key _ _ _ h).1, (key _ _ _ h).2, rfl⟩
  · split at h
    · cases h
    · exact ⟨(key _ _ _ h).1, (key _ _ _ h).2, rfl⟩

/-- Witness for C10 on the concrete restart iteration `lC10`. -/
theorem wolfe_gtd_prenegation_witness :
    rC10.gtd = rC10.l.flat_grad ⬝ᵥ rC10.dPre ∧
    rC10.l.dw = (if 0 < rC10.gtd then -rC10.dPre else rC10.dPre) ∧
    mkLSCall rC10 = { x := rC10.l.x, t := rC10.l.alpha, d := rC10.l.dw, f := rC10.l.loss,
                      g := rC10.l.flat_grad, gtd := rC10.gtd } :=
  wolfe_gtd_prenegation cfgLS (bkNone 1) lC10 rC10 phase1_lC10

/-! Claim C8: the rejection guards after the strong-Wolfe search. -/

/-- Helper: `afterStep` only ever exits with `emptyMem`, `smallAred` or
`maxIter`; never with one of the line-search guard reasons. -/
theorem afterStep_brk {n : ℕ} (cfg : Config) (n_iter : ℕ) (r : Ready n)
    (l : Locals n) (q : Reason) (l1 : Locals n)
    (h : afterStep cfg n_iter r l = (.brk q, l1)) :
    q = .emptyMem ∨ q = .smallAred ∨ q = .maxIter := by
  simp only [afterStep] at h
  split_ifs at h
  · injection h with ha hb
    injection ha with hc
    subst hc
    simp
  · injection h with ha hb
    injection ha with hc
    subst hc
    simp
  · injection h with ha hb
    injection ha with hc
    subst hc
    simp
  · injection h with ha hb
    cases ha

/-- C8 (amended): with the strong-Wolfe search enabled, the iteration is
rejected — loop break with a pending restart and locals otherwise untouched,
hence no memory offer, no radius update, no parameter update — exactly when
the returned step length lies outside `[1e-12, 1e6]`, the returned gradient
norm lies outside `[1e-12, 1e6]`, or the returned loss is `NaN` or exceeds
`1e6`; at float level the line-914 test rejects `+inf` (via `> 1e6`) but not
`−inf`, contrary to the claim's "non-finite" wording. -/
theorem ls_reject_guards {n : ℕ} [NeZero n] (cfg : Config) (oracle : V n → ℝ × V n)
    (ls : LSCall n → ℝ × V n × ℝ) (n_iter : ℕ) (r : Ready n)
    (hls : cfg.line_search_fn = some "strong_wolfe") :
    lsGuardConcl cfg oracle ls n_iter r := by
  have hadv : advance cfg oracle ls n_iter r =
      (let out := ls (mkLSCall r)
       let loss_t := out.1
       let flat_grad_t := out.2.1
       let alpha_t := out.2.2
       if alpha_t < 1e-12 ∨ 1000000 < alpha_t then
         .ok (.brk .lsAlpha, { r.l with restart := 1 })
       else
         let check_grad := normV flat_grad_t
         if check_grad < 1e-12 ∨ 1000000 < check_grad then
           .ok (.brk .lsGrad, { r.l with restart := 1 })
         else if 1000000 < loss_t then
           .ok (.brk .lsLoss, { r.l with restart := 1 })
         else
           let l1 := { r.l with loss := loss_t, flat_grad := flat_grad_t, alpha := alpha_t }
           let opt_cond := linf flat_grad_t ≤ cfg.tolerance_grad
           let l2 := { l1 with x := l1.x + l1.alpha • l1.dw }
           if opt_cond then .ok (.brk .lsOpt, { l2 with restart := 1 })
           else .ok (afterStep cfg n_iter r l2)) := by
    simp only [advance, hls]
    rw [if_neg (by simp)]
  refine ⟨?_, ?_, fun c => by simp [lossRejected, FVal.gtR, FVal.isnan],
    by simp [lossRejected, FVal.gtR], by simp [lossRejected, FVal.gtR, FVal.isnan]⟩
  · intro hrej
    rw [hadv]
    simp only []
    simp only [lsRejectCond] at hrej
    split_ifs with h1 h2 h3
    · exact ⟨.lsAlpha, Or.inl rfl, rfl⟩
    · exact ⟨.lsGrad, Or.inr (Or.inl rfl), rfl⟩
    · exact ⟨.lsLoss, Or.inr (Or.inr rfl), rfl⟩
    · exact absurd hrej (by tauto)
    · exact absurd hrej (by tauto)
  · intro hn q l1 h
    rw [hadv] at h
    simp only [] at h
    simp only [lsRejectCond] at hn
    split_ifs at h with h1 h2 h3 h4
    · exact absurd (by tauto) hn
    · exact absurd (by tauto) hn
    · exact absurd (by tauto) hn
    · injection h with h5
      injection h5 with ha hb
      injection ha with hc
      subst hc
      exact ⟨by decide, by decide, by decide⟩
    · injection h with h5
      rcases afterStep_brk cfg n_iter r _ q l1 h5 with h8 | h8 | h8 <;> subst h8 <;>
        exact ⟨by decide, by decide, by decide⟩

/-- Witness for C8 (amended) at a concrete configuration and call. -/
theorem ls_reject_guards_witness : lsGuardConcl cfgLS oracle9 (lsId 1) 1 rC10 :=
  ls_reject_guards cfgLS oracle9 (lsId 1) 1 rC10 rfl

/-- C8 (counterexample): the loss test at source line 914
(`loss_t > 1000000 or math.isnan(loss_t)`) does not fire on a loss of `−inf`,
although `−inf` is non-finite and the claim requires rejection there. -/
theorem ls_loss_ninf_cx : ¬ lossRejected FVal.ninf ∧ ¬ FVal.isFinite FVal.ninf := by
  constructor
  · intro h
    rcases h with h | h
    · exact h
    · exact h
  · intro h
    exact h

/-! Claim C4: which quadratic form the Cauchy-point solver tests. -/

theorem dot_two_dim (v w : V 2) : v ⬝ᵥ w = v 0 * w 0 + v 1 * w 1 := by
  simp [Matrix.dotProduct, Fin.sum_univ_two]

/-- C4 (amended): the Cauchy-point solver returns
`p = −τ·trust_radius/‖g‖·g` with the curvature test taken on
`gᵀ(hess_1·hess_2)g = gᵀ·P·diag(λ)·Pᵀ·g = gᵀ(B − γI)g`: the `γI` diagonal part
of the SR1 Hessian is not included (`step` passes `L = lamb * P` and `Pᵀ`,
lines 808-815, although it does add `γ‖d‖²` in its own `dHd` at lines
840-846, and the solver's docstring says `P*diag(gamma+lambda)`). -/
theorem cauchy_formula {n k : ℕ} (flat_grad : V n) (hess_1 : Matrix (Fin n) (Fin k) ℝ)
    (hess_2 : Matrix (Fin k) (Fin n) ℝ) (trust_radius : ℝ) :
    trust_solver_cauchy flat_grad hess_1 hess_2 trust_radius =
      (let cc := flat_grad ⬝ᵥ (hess_1 * hess_2).mulVec flat_grad
       let tau : ℝ := if cc ≤ 0 then 1
         else min (normV flat_grad ^ 3 / (cc * trust_radius)) 1
       (-tau * trust_radius / normV flat_grad) • flat_grad) := by
  have key : hess_1.vecMul flat_grad ⬝ᵥ hess_2.mulVec flat_grad
      = flat_grad ⬝ᵥ (hess_1 * hess_2).mulVec flat_grad := by
    conv_rhs => rw [Matrix.dotProduct_mulVec, ← Matrix.vecMul_vecMul]
    rw [Matrix.dotProduct_mulVec]
  simp only [trust_solver_cauchy, key]

/-- C4 (counterexample): with `γ = 1`, `λ = 0` (so `B = γI` is positive
definite), unit gradient and `trust_radius = 2`, the code takes the
zero-curvature branch (`gᵀPdiag(λ)Pᵀg = 0 ≤ 0`, so `τ = 1`) and returns
`(−2, 0)`, while the claimed formula with `gᵀBg = 1 > 0` gives `τ = 1/2` and
`(−1, 0)`. -/
theorem cauchy_gamma_cx :
    trust_solver_cauchy gC4 h1C4 h2C4 2 = ![-2, 0] ∧
    cauchySpec 1 gC4 h1C4 h2C4 2 = ![-1, 0] ∧
    (![-2, 0] : V 2) ≠ ![-1, 0] := by
  have hnorm : normV gC4 = 1 := by
    rw [normV, dot_two_dim]
    norm_num [gC4, Real.sqrt_one]
  refine ⟨?_, ?_, ?_⟩
  · simp only [trust_solver_cauchy, hnorm]
    norm_num [Matrix.vecMul, Matrix.mulVec, Matrix.dotProduct, Fin.sum_univ_two,
      Fin.sum_univ_one, gC4, h1C4, h2C4, funext_iff, Fin.forall_fin_two, Pi.smul_apply,
      smul_eq_mul]
  · simp only [cauchySpec, hnorm]
    norm_num [Matrix.vecMul, Matrix.mulVec, Matrix.dotProduct, Matrix.mul_apply,
      Fin.sum_univ_two, Fin.sum_univ_one, gC4, h1C4, h2C4, funext_iff, Fin.forall_fin_two,
      Pi.smul_apply, smul_eq_mul, Matrix.add_apply, Matrix.smul_apply, Matrix.one_apply]
  · intro h
    have := congrFun h 0
    norm_num at this

/-! Claim C5: the Steihaug CG direction update. -/

theorem normV_neg {m : ℕ} (v : V m) : normV (-v) = normV v := by
  unfold normV
  rw [Matrix.neg_dotProduct, Matrix.dotProduct_neg, neg_neg]

/-- C5 (code bug): at line 690 the source sets `d = -r + beta * dd`, where
`dd = d·d` is a scalar, so the broadcast adds `β·(dᵀd)` to every component of
`−r` instead of adding `β·d` componentwise (standard CG, and the spec's
"standard preconditioner-free CG", would be `d = -r + beta * d`).  Evaluated on
`B = diag(10, 1/10)`, `g = (3,4)`, `trust_radius = 100`: the first CG iteration
survives all three exit tests and hands the recursive call the direction
`dBugC5 = (2477277/52441, 2001186/52441)`, not the conjugate direction
`(7425/52441, −556875/52441)`. -/
theorem steihaug_cg_update_dd_bug :
    (∀ fuel : ℕ, trust_solver_steihaug (fuel + 1) gC5 h1C5 h2C5 100
        = steihaugLoop h1C5 h2C5 100 (5/2) (fuel + 1) 0 gC5 (-gC5)) ∧
    (∀ fuel : ℕ, steihaugLoop h1C5 h2C5 100 (5/2) (fuel + 1) 0 gC5 (-gC5)
        = steihaugLoop h1C5 h2C5 100 (5/2) fuel z1C5 r1C5 dBugC5) ∧
    dBugC5 = addScalar (-r1C5) ((r1C5 ⬝ᵥ r1C5) / (gC5 ⬝ᵥ gC5) * ((-gC5) ⬝ᵥ (-gC5))) ∧
    dCgC5 = -r1C5 + ((r1C5 ⬝ᵥ r1C5) / (gC5 ⬝ᵥ gC5)) • (-gC5) ∧
    dBugC5 ≠ dCgC5 := by
  have hg5 : normV gC5 = 5 := by
    rw [normV, dot_two_dim]
    norm_num [gC5]
    rw [show (25 : ℝ) = 5 ^ 2 by norm_num, Real.sqrt_sq (by norm_num)]
  have hgg : gC5 ⬝ᵥ gC5 = 25 := by rw [dot_two_dim]; norm_num [gC5]
  have hdd : (-gC5) ⬝ᵥ (-gC5) = 25 := by
    rw [Matrix.neg_dotProduct, Matrix.dotProduct_neg, neg_neg, hgg]
  have hrr : r1C5 ⬝ᵥ r1C5 = 2205225 / 52441 := by rw [dot_two_dim]; norm_num [r1C5]
  refine ⟨?_, ?_, ?_, ?_, ?_⟩
  · intro fuel
    have hvm : gC5 ᵥ* h1C5 = ![30, 2/5] := by
      funext i
      fin_cases i <;>
        simp [Matrix.vecMul, Matrix.dotProduct, Fin.sum_univ_two, gC5, h1C5] <;> norm_num
    have hpos : ¬ (gC5 ᵥ* h1C5 ⬝ᵥ h2C5 *ᵥ gC5 ≤ 0) := by
      rw [hvm, h2C5, Matrix.one_mulVec, dot_two_dim]
      norm_num [gC5]
    simp only [trust_solver_steihaug]
    rw [if_neg hpos, hg5]
    have hmin : min (0.5 : ℝ) (Real.sqrt 5) * 5 = 5 / 2 := by
      rw [min_eq_left]
      · norm_num
      · rw [show (0.5 : ℝ) = Real.sqrt (1/4) by
            rw [show (1/4 : ℝ) = (1/2)^2 by norm_num, Real.sqrt_sq] <;> norm_num]
        exact Real.sqrt_le_sqrt (by norm_num)
    rw [hmin]
  · intro fuel
    have hvm : (-gC5) ᵥ* h1C5 = ![-30, -2/5] := by
      funext i
      fin_cases i <;>
        simp [Matrix.vecMul, Matrix.dotProduct, Fin.sum_univ_two, gC5, h1C5] <;> norm_num
    have hdHd : (-gC5) ᵥ* h1C5 ⬝ᵥ h2C5 *ᵥ (-gC5) = 458 / 5 := by
      rw [hvm, h2C5, Matrix.one_mulVec, dot_two_dim]
      norm_num [gC5]
    simp only [steihaugLoop]
    rw [hdHd, hgg, hdd]
    rw [if_neg (by norm_num)]
    have hz1 : (0 : V 2) + ((25 : ℝ) / (458 / 5)) • -gC5 = z1C5 := by
      funext i
      fin_cases i <;> simp [gC5, z1C5] <;> norm_num
    rw [hz1]
    have hnz1 : normV z1C5 = 625 / 458 := by
      rw [normV, dot_two_dim]
      norm_num [z1C5]
      rw [show (390625 : ℝ) = 625 ^ 2 by norm_num, show (209764 : ℝ) = 458 ^ 2 by norm_num,
        Real.sqrt_sq (by norm_num), Real.sqrt_sq (by norm_num)]
    rw [if_neg (by rw [hnz1]; norm_num)]
    have hr1 : gC5 + ((25 : ℝ) / (458 / 5)) • (h1C5 *ᵥ h2C5 *ᵥ -gC5) = r1C5 := by
      rw [h2C5, Matrix.one_mulVec]
      have hmv : h1C5 *ᵥ -gC5 = ![-30, -2/5] := by
        funext i
        fin_cases i <;>
          simp [Matrix.mulVec, Matrix.dotProduct, Fin.sum_univ_two, gC5, h1C5] <;> norm_num
      rw [hmv]
      funext i
      fin_cases i <;> simp [gC5, r1C5] <;> norm_num
    rw [hr1]
    have hnr1 : normV r1C5 = 1485 / 229 := by
      rw [normV, dot_two_dim]
      norm_num [r1C5]
      rw [show (2205225 : ℝ) = 1485 ^ 2 by norm_num, show (52441 : ℝ) = 229 ^ 2 by norm_num,
        Real.sqrt_sq (by norm_num), Real.sqrt_sq (by norm_num)]
    rw [if_neg (by rw [hnr1]; norm_num)]
    rw [hrr]
    have hd1 : addScalar (-r1C5) ((2205225 : ℝ) / 52441 / 25 * 25) = dBugC5 := by
      funext i
      fin_cases i <;> simp [addScalar, r1C5, dBugC5] <;> norm_num
    rw [hd1]
  · rw [hrr, hgg, hdd]
    funext i
    fin_cases i <;> simp [addScalar, r1C5, dBugC5] <;> norm_num
  · rw [hrr, hgg]
    funext i
    fin_cases i <;> simp [r1C5, dCgC5, gC5] <;> norm_num
  · intro h
    have := congrFun h 0
    norm_num [dBugC5, dCgC5] at this

/-! Claim C1: the trust-region norm bound of the three solvers. -/

theorem inf_two_dim (f : Fin 2 → ℝ) :
    Finset.univ.inf' Finset.univ_nonempty f = min (f 0) (f 1) := by
  have h : (Finset.univ : Finset (Fin 2)) = {0, 1} := rfl
  simp [h]

theorem boundary_dot {n : ℕ} (z d : V n) (Δ τ : ℝ)
    (hτ : (d ⬝ᵥ d) * τ^2 + 2 * (d ⬝ᵥ z) * τ + (z ⬝ᵥ z - Δ^2) = 0) :
    (z + τ • d) ⬝ᵥ (z + τ • d) = Δ ^ 2 := by
  have hexp : (z + τ • d) ⬝ᵥ (z + τ • d)
      = z ⬝ᵥ z + 2 * τ * (d ⬝ᵥ z) + τ^2 * (d ⬝ᵥ d) := by
    simp [Matrix.add_dotProduct, Matrix.dotProduct_add, Matrix.dotProduct_smul,
      Matrix.smul_dotProduct, Matrix.dotProduct_comm z d, smul_eq_mul]
    ring
  rw [hexp]
  linear_combination hτ

theorem tau_root {dz dd zz Δ : ℝ} (hdd : 0 < dd)
    (hD : 0 ≤ (-2*dz)^2 - 4*dd*(zz - Δ^2)) :
    dd * ((-2*dz + Real.sqrt ((-2*dz)^2 - 4*dd*(zz - Δ^2)))/(2*dd))^2
      + 2*dz*((-2*dz + Real.sqrt ((-2*dz)^2 - 4*dd*(zz - Δ^2)))/(2*dd)) + (zz - Δ^2) = 0 := by
  set s := Real.sqrt ((-2*dz)^2 - 4*dd*(zz - Δ^2)) with hsdef
  have hs2 : s^2 = (-2*dz)^2 - 4*dd*(zz - Δ^2) := Real.sq_sqrt hD
  field_simp
  nlinarith [hs2]

/-- Helper: every exit of the Steihaug CG loop stays inside the trust region,
by the loop invariant `z ⬝ᵥ z < Δ²` — the boundary exits land exactly on the
boundary (positive root of the boundary quadratic), the interior exits stay
strictly inside (and a zero CG direction contributes nothing). -/
theorem steihaugLoop_norm_le {n k : ℕ} (h1 : Matrix (Fin n) (Fin k) ℝ)
    (h2 : Matrix (Fin k) (Fin n) ℝ) (Δ δ : ℝ) (hΔ : 0 < Δ) :
    ∀ (fuel : ℕ) (z r d : V n), z ⬝ᵥ z < Δ ^ 2 →
      normV (steihaugLoop h1 h2 Δ δ fuel z r d) ≤ Δ := by
  have bcase : ∀ z d : V n, z ⬝ᵥ z < Δ^2 →
      normV (z + ((-2 * (d ⬝ᵥ z) + Real.sqrt ((-2 * (d ⬝ᵥ z))^2
          - 4 * (d ⬝ᵥ d) * (z ⬝ᵥ z - Δ^2))) / (2 * (d ⬝ᵥ d))) • d) ≤ Δ := by
    intro z d hz
    rcases (dot_self_nonneg d).eq_or_lt with hdd | hdd
    · have hd0 : d = 0 := Matrix.dotProduct_self_eq_zero.mp hdd.symm
      rw [hd0, smul_zero, add_zero]
      exact normV_le_of_dot_le hΔ.le hz.le
    · apply normV_le_of_dot_le hΔ.le
      have hD : 0 ≤ (-2*(d ⬝ᵥ z))^2 - 4*(d ⬝ᵥ d)*((z ⬝ᵥ z) - Δ^2) := by nlinarith
      exact le_of_eq (boundary_dot z d Δ _ (tau_root hdd hD))
  intro fuel
  induction fuel with
  | zero =>
    intro z r d hz
    exact normV_le_of_dot_le hΔ.le hz.le
  | succ fuel ih =>
    intro z r d hz
    simp only [steihaugLoop]
    split_ifs with hcurv hbound hres
    · exact bcase z d hz
    · exact bcase z d hz
    · exact (not_le.mp hbound).le
    · exact ih _ _ _ (dot_lt_of_normV_lt hΔ (not_le.mp hbound))

theorem cauchy_norm_le {n k : ℕ} (flat_grad : V n) (hess_1 : Matrix (Fin n) (Fin k) ℝ)
    (hess_2 : Matrix (Fin k) (Fin n) ℝ) (trust_radius : ℝ)
    (hg : 0 < normV flat_grad) (hr : 0 < trust_radius) :
    normV (trust_solver_cauchy flat_grad hess_1 hess_2 trust_radius) ≤ trust_radius := by
  unfold trust_solver_cauchy
  set cc := hess_1.vecMul flat_grad ⬝ᵥ hess_2.mulVec flat_grad with hcc
  set tau : ℝ := if cc ≤ 0 then 1
    else min (normV flat_grad ^ 3 / (cc * trust_radius)) 1 with htau
  have htau0 : 0 ≤ tau := by
    rw [htau]
    split_ifs with h
    · norm_num
    · push_neg at h
      exact le_min (div_nonneg (pow_nonneg (normV_nonneg _) 3)
        (mul_nonneg h.le hr.le)) zero_le_one
  have htau1 : tau ≤ 1 := by
    rw [htau]
    split_ifs with h
    · exact le_rfl
    · exact min_le_right _ _
  rw [normV_smul]
  have hg0 : normV flat_grad ≠ 0 := ne_of_gt hg
  have habs : |(-tau * trust_radius / normV flat_grad)|
      = tau * trust_radius / normV flat_grad := by
    rw [abs_div, abs_of_pos hg, abs_of_nonpos (by nlinarith : -tau * trust_radius ≤ 0)]
    ring_nf
  rw [habs, div_mul_cancel₀ _ hg0]
  nlinarith

theorem steihaug_norm_le {n k : ℕ} (cg_iter : ℕ) (flat_grad : V n)
    (hess_1 : Matrix (Fin n) (Fin k) ℝ) (hess_2 : Matrix (Fin k) (Fin n) ℝ)
    (trust_radius : ℝ) (hg : 0 < normV flat_grad) (hr : 0 < trust_radius) :
    normV (trust_solver_steihaug cg_iter flat_grad hess_1 hess_2 trust_radius)
      ≤ trust_radius := by
  simp only [trust_solver_steihaug]
  split_ifs with hneg
  · rw [normV_smul, abs_div, abs_neg, abs_of_pos hr, abs_of_pos hg,
      div_mul_cancel₀ _ (ne_of_gt hg)]
  · exact steihaugLoop_norm_le hess_1 hess_2 trust_radius _ hr cg_iter 0 flat_grad
      (-flat_grad) (by rw [Matrix.zero_dotProduct]; positivity)

/-- C1 (amended): the Cauchy-point and Steihaug solvers return a direction of
norm at most `trust_radius` (with `ε = 0`, for every gradient of positive norm,
every compact-factor pair and every positive radius); the OBS solver does not
satisfy the bound — see the counterexample `obs_exceeds_radius_cx`. -/
theorem radius_bound_cauchy_steihaug :
    (∀ (n k : ℕ) (flat_grad : V n) (hess_1 : Matrix (Fin n) (Fin k) ℝ)
        (hess_2 : Matrix (Fin k) (Fin n) ℝ) (trust_radius : ℝ),
      0 < normV flat_grad → 0 < trust_radius →
      normV (trust_solver_cauchy flat_grad hess_1 hess_2 trust_radius) ≤ trust_radius) ∧
    (∀ (n k cg_iter : ℕ) (flat_grad : V n) (hess_1 : Matrix (Fin n) (Fin k) ℝ)
        (hess_2 : Matrix (Fin k) (Fin n) ℝ) (trust_radius : ℝ),
      0 < normV flat_grad → 0 < trust_radius →
      normV (trust_solver_steihaug cg_iter flat_grad hess_1 hess_2 trust_radius)
        ≤ trust_radius) :=
  ⟨fun _ _ g h1 h2 tr hg hr => cauchy_norm_le g h1 h2 tr hg hr,
   fun _ _ ci g h1 h2 tr hg hr => steihaug_norm_le ci g h1 h2 tr hg hr⟩

/-- Witness for C1 (amended) at `g = (1,0)`, `B − γI = 0`, radius 2. -/
theorem radius_bound_cauchy_steihaug_witness :
    normV (trust_solver_cauchy gC4 h1C4 h2C4 2) ≤ 2 ∧
    normV (trust_solver_steihaug 3 gC4 h1C4 h2C4 2) ≤ 2 := by
  have hg : 0 < normV gC4 := by
    rw [normV, dot_two_dim]
    norm_num [gC4, Real.sqrt_one]
  exact ⟨radius_bound_cauchy_steihaug.1 2 1 gC4 h1C4 h2C4 2 hg (by norm_num),
    radius_bound_cauchy_steihaug.2 2 1 3 gC4 h1C4 h2C4 2 hg (by norm_num)⟩

/-- C1 (counterexample): a consistent positive-definite one-pair model on
which the OBS solver returns a direction of norm ≈ 0.45 against a trust radius
of 1/1000.  The coefficient `a₁ = Pᵀg = 9·10⁻¹¹` sits below the `1e-10`
secular threshold, so `φ(0)` sees only the well-conditioned component and the
solver takes the interior branch, while the unconstrained minimizer's dropped
component `a₁/(λ₁+γ) = 0.45` dominates the returned step.  The first five
conjuncts certify the concrete input: the implicit Hessian `BC1` has eigenpair
`(2·10⁻¹⁰, P)` and `(1/25, P⊥)` (both eigenvalues positive, so the model is
positive definite), `lambC1` is the `λ+γ` vector, and `M·λ = ΨᵀΨ = 25` ties
`M` to the eigenvalue data. -/
theorem obs_exceeds_radius_cx :
    BC1 ![3/5, 4/5] = ((1 : ℝ)/5000000000) • ![3/5, 4/5] ∧
    BC1 ![-4/5, 3/5] = ((1 : ℝ)/25) • ![-4/5, 3/5] ∧
    ((0 : ℝ) < 1/5000000000 ∧ (0 : ℝ) < 1/25) ∧
    lambC1 0 = lamC1 + 1/25 ∧
    MC1 0 0 * lamC1 = 25 ∧
    0 < normV gC1 ∧
    1/1000 + 1/10
      < normV (trust_solver_OBS 5 MC1 PC1 lambC1 (1/1000) (1/25) gC1 psiC1) := by
  have hphi : phi (1/1000) 0 (1/1000) (![(9 : ℝ)/100000000000, 1/50000])
      (![(1 : ℝ)/5000000000, 1/25]) = 1000 := by
    simp only [phi]
    norm_num [Fin.exists_fin_two, Fin.sum_univ_two, abs_of_pos]
    rw [show (4000000 : ℝ) = 2000^2 by norm_num, Real.sqrt_sq (by norm_num)]
    norm_num
  have hp1 : equation_p1 psiC1 MC1 ((1:ℝ)/25 + 0) gC1
      = ![(-337 : ℝ)/1250, (-3603 : ℝ)/10000] := by
    have hZ : ((1/25 : ℝ) + 0) • MC1 + psiC1ᵀ * psiC1
        = Matrix.of ![![(-25 : ℝ)/199999999]] := by
      ext i j
      fin_cases i
      fin_cases j
      simp [MC1, psiC1, Matrix.mul_apply, Fin.sum_univ_two, lamC1, Matrix.transpose_apply,
        Matrix.vecHead, Matrix.vecTail, Matrix.of_apply, Matrix.cons_val_zero,
        Matrix.cons_val_one, Matrix.head_cons, Matrix.cons_val_fin_one]
      norm_num
    have hZinv : (Matrix.of ![![(-25 : ℝ)/199999999]])⁻¹
        = Matrix.of ![![(-199999999 : ℝ)/25]] := by
      apply Matrix.inv_eq_right_inv
      ext i j
      fin_cases i
      fin_cases j
      simp [Matrix.mul_apply, Fin.sum_univ_one, Matrix.one_apply]
      norm_num
    have hf : psiC1ᵀ.mulVec gC1 = ![(9 : ℝ)/20000000000] := by
      funext i
      fin_cases i
      simp [Matrix.mulVec, Matrix.dotProduct, Fin.sum_univ_two, psiC1, gC1,
        Matrix.transpose_apply]
      norm_num
    have hZf : (Matrix.of ![![(-199999999 : ℝ)/25]]).mulVec ![(9 : ℝ)/20000000000]
        = ![(-1799999991 : ℝ)/500000000000] := by
      funext i
      fin_cases i
      simp [Matrix.mulVec, Matrix.dotProduct, Fin.sum_univ_one]
      norm_num
    have hpz : psiC1.mulVec ![(-1799999991 : ℝ)/500000000000]
        = ![(-5399999973 : ℝ)/500000000000, (-7199999964 : ℝ)/500000000000] := by
      funext i
      fin_cases i <;>
        simp [Matrix.mulVec, Matrix.dotProduct, Fin.sum_univ_one, psiC1] <;> norm_num
    simp only [equation_p1]
    rw [hZ, hZinv, hf, hZf, hpz]
    funext i
    fin_cases i <;> simp [gC1] <;> norm_num
  have heval : trust_solver_OBS 5 MC1 PC1 lambC1 (1/1000) (1/25) gC1 psiC1
      = ![(-337 : ℝ)/1250, (-3603 : ℝ)/10000] := by
    have hgll : PC1ᵀ.mulVec gC1 = ![(9 : ℝ)/100000000000] := by
      funext i
      fin_cases i
      simp [Matrix.mulVec, Matrix.dotProduct, Fin.sum_univ_two, PC1, gC1,
        Matrix.transpose_apply]
      norm_num
    have hsub : gC1 ⬝ᵥ gC1
        - (![(9 : ℝ)/100000000000] : Fin 1 → ℝ) ⬝ᵥ ![(9 : ℝ)/100000000000]
        = 1/2500000000 := by
      rw [dot_two_dim, dot_one_dim]
      norm_num [gC1]
    have hsq : Real.sqrt ((1 : ℝ)/2500000000) = 1/50000 := by
      rw [show (1/2500000000 : ℝ) = (1/50000)^2 by norm_num, Real.sqrt_sq (by norm_num)]
    have hsnoca : (Fin.snoc ![(9 : ℝ)/100000000000] ((1 : ℝ)/50000) : Fin 2 → ℝ)
        = ![(9 : ℝ)/100000000000, 1/50000] := by
      funext i
      fin_cases i <;> simp [Fin.snoc]
    have hsnocl : (Fin.snoc lambC1 ((1 : ℝ)/25) : Fin 2 → ℝ)
        = ![(1 : ℝ)/5000000000, 1/25] := by
      funext i
      fin_cases i <;> simp [Fin.snoc, lambC1]
    have habs1 : (1e-10 : ℝ) < |(1 : ℝ)/5000000000| := by
      rw [abs_of_pos (by norm_num)]
      norm_num
    have habs2 : (1e-10 : ℝ) < |(1 : ℝ)/25| := by
      rw [abs_of_pos (by norm_num)]
      norm_num
    have hmask : (fun i => if (1e-10 : ℝ) < |(![(1 : ℝ)/5000000000, 1/25] : Fin 2 → ℝ) i|
          then (![(1 : ℝ)/5000000000, 1/25] : Fin 2 → ℝ) i else 0)
        = ![(1 : ℝ)/5000000000, 1/25] := by
      funext i
      fin_cases i
      · simp only [Fin.zero_eta, Fin.isValue, Matrix.cons_val_zero]
        rw [if_pos habs1]
      · simp only [Fin.mk_one, Fin.isValue, Matrix.cons_val_one, Matrix.head_cons]
        rw [if_pos habs2]
    simp only [trust_solver_OBS]
    rw [hgll, hsub, abs_of_pos (by norm_num : (0 : ℝ) < 1/2500000000), hsq]
    rw [if_neg (by norm_num : ¬ ((1 : ℝ)/50000)^2 < 1e-10)]
    rw [hsnoca]
    simp only [hsnocl, hmask]
    rw [inf_two_dim]
    simp only [Fin.isValue, Matrix.cons_val_zero, Matrix.cons_val_one, Matrix.head_cons]
    rw [min_eq_left (by norm_num : (1 : ℝ)/5000000000 ≤ 1/25), hphi]
    rw [if_pos (⟨by norm_num, by norm_num⟩ : (0:ℝ) ≤ 1000 ∧ (0:ℝ) < 1/5000000000)]
    exact hp1
  refine ⟨?_, ?_, ⟨by norm_num, by norm_num⟩, by norm_num [lambC1, lamC1],
    by norm_num [MC1, lamC1], ?_, ?_⟩
  · funext i
    fin_cases i <;>
      simp [BC1, lamC1, PC1, Matrix.mulVec, Matrix.dotProduct, Fin.sum_univ_two,
        Fin.sum_univ_one, Matrix.transpose_apply, Matrix.vecHead, Matrix.vecTail,
        Matrix.of_apply, Matrix.cons_val_fin_one] <;> norm_num
  · funext i
    fin_cases i <;>
      simp [BC1, lamC1, PC1, Matrix.mulVec, Matrix.dotProduct, Fin.sum_univ_two,
        Fin.sum_univ_one, Matrix.transpose_apply, Matrix.vecHead, Matrix.vecTail,
        Matrix.of_apply, Matrix.cons_val_fin_one] <;> norm_num
  · rw [normV]
    apply Real.sqrt_pos.mpr
    rw [dot_two_dim]
    norm_num [gC1]
  · rw [heval, normV, dot_two_dim]
    have := (Real.lt_sqrt (by norm_num : (0 : ℝ) ≤ 1/1000 + 1/10)).mpr
      (by norm_num : ((1 : ℝ)/1000 + 1/10)^2
        < (-337/1250 : ℝ) * (-337/1250) + (-3603/10000 : ℝ) * (-3603/10000))
    convert this using 2

end LSR1
